import Mathlib

/-!
Verification of the 2board canvas workspace core (src/App.tsx,
src/services/geminiService.ts, src/types.ts).

The data model and the handlers are shallowly embedded: block and
connection records mirror `types.ts`; each React handler becomes a pure
function on the relevant slice of state, with `Date.now()` passed as an
explicit `now : Nat` argument and each external completion call (the
Gemini service) replaced by an explicit outcome parameter.  JavaScript
truthiness on optional strings (`if (x)` where `x : string | undefined`)
is modelled by `jsTruthyStr`, and `a || b` on strings by `jsOr`.
Numeric canvas coordinates are rationals.
-/

namespace TwoBoard

/-- Logical canvas coordinate (types.ts `Position`). -/
structure Pos where
  x : ℚ
  y : ℚ
deriving DecidableEq

/-- types.ts `BlockType` (the literal union of block type tags). -/
inductive BlockType
  | note | image | video | synthesis | audio | refinement
  | chat | link | youtube | pdf | ragdb
deriving DecidableEq

/-- types.ts `BlockStatus`. -/
inductive BlockStatus
  | todo | inProgress | done
deriving DecidableEq

/-- types.ts `ChatMessage.role`. -/
inductive Role
  | user | model
deriving DecidableEq

/-- types.ts `ChatMessage`. -/
structure ChatMessage where
  role : Role
  text : String
deriving DecidableEq

/-- types.ts `RagDocument`. -/
structure RagDocument where
  id : String
  sourceId : String
  title : String
  content : String
  timestamp : Nat
  type : BlockType
deriving DecidableEq

/-- types.ts `BlockData`.  Optional fields are `Option`s (`none` models an
absent/undefined field). -/
structure BlockData where
  id : String
  type : BlockType
  content : String
  title : Option String := none
  position : Pos
  width : ℚ
  height : ℚ
  selected : Option Bool := none
  isProcessing : Option Bool := none
  status : BlockStatus
  createdAt : Nat
  tags : List String
  audioUrl : Option String := none
  instruction : Option String := none
  chatHistory : Option (List ChatMessage) := none
  sourceUrl : Option String := none
  ragDbName : Option String := none
  ragIndexedDocs : Option (List RagDocument) := none
  ragLastSynced : Option Nat := none
deriving DecidableEq

/-- types.ts `Connection`.  The source fields are named `from` and `to`;
`from` is a Lean keyword, so they are rendered `fromId` / `toId`. -/
structure Connection where
  id : String
  fromId : String
  toId : String
deriving DecidableEq

/-- types.ts `GlobalRagDatabase`. -/
structure GlobalRagDatabase where
  name : String
  docs : List RagDocument
  updatedAt : Nat
deriving DecidableEq

/-- The `blocks` / `connections` slice of the active workspace that the
canvas handlers read and write (via `updateWorkspaceState`). -/
structure GraphState where
  blocks : List BlockData
  connections : List Connection
deriving DecidableEq

/-- JavaScript truthiness of a `string | undefined` value: `undefined`
and the empty string are falsy. -/
def jsTruthyStr : Option String → Bool
  | none => false
  | some s => s ≠ ""

/-- JavaScript `a || b` on a `string | undefined | null` left operand:
the default is used when the left side is absent or the empty string. -/
def jsOr (a : Option String) (dflt : String) : String :=
  match a with
  | none => dflt
  | some s => if s = "" then dflt else s

/-- App.tsx `addBlockAt` block title: `type === 'rag-db' ? 'New Knowledge
Base' : type.charAt(0).toUpperCase() + type.slice(1)`, evaluated per tag. -/
def addBlockTitle : BlockType → String
  | .note => "Note"
  | .image => "Image"
  | .video => "Video"
  | .synthesis => "Synthesis"
  | .audio => "Audio"
  | .refinement => "Refinement"
  | .chat => "Chat"
  | .link => "Link"
  | .youtube => "Youtube"
  | .pdf => "Pdf"
  | .ragdb => "New Knowledge Base"

/-- App.tsx `addBlockAt` block height: 240 for chat/audio/youtube/rag-db,
160 otherwise. -/
def addBlockHeight (ty : BlockType) : ℚ :=
  if ty = .chat ∨ ty = .audio ∨ ty = .youtube ∨ ty = .ragdb then 240 else 160

/-- App.tsx `addBlockAt`: appends a freshly created block (id is
`Date.now().toString()`, passed here as `now`).  Connections untouched. -/
def addBlockAt (s : GraphState) (ty : BlockType) (x y : ℚ) (now : Nat) : GraphState :=
  { s with
    blocks := s.blocks ++ [{
      id := toString now
      type := ty
      content := ""
      title := some (addBlockTitle ty)
      position := ⟨x - 140, y - 80⟩
      width := 280
      height := addBlockHeight ty
      status := .todo
      createdAt := now
      tags := [] }] }

/-- App.tsx `deleteBlock`: one `updateWorkspaceState` call filters the
block with the given id out of `blocks` and, in the same mutation, every
connection whose `from` or `to` equals the id out of `connections`.
(The separate `selectedBlockIds` update does not touch the graph.) -/
def deleteBlock (s : GraphState) (id : String) : GraphState :=
  { blocks := s.blocks.filter (fun b => b.id != id)
    connections := s.connections.filter (fun c => c.fromId != id && c.toId != id) }

/-- A block-level operation on the graph, as in the C1 claim: either an
`addBlockAt` placement or a `deleteBlock`. -/
inductive Op
  | add (ty : BlockType) (x y : ℚ) (now : Nat)
  | del (id : String)

/-- Apply one operation to the graph state. -/
def applyOp (s : GraphState) : Op → GraphState
  | .add ty x y now => addBlockAt s ty x y now
  | .del id => deleteBlock s id

/-- Apply a sequence of operations, left to right. -/
def applyOps (s : GraphState) (ops : List Op) : GraphState :=
  ops.foldl applyOp s

/-- Referential consistency of the graph: every connection endpoint names
an existing block. -/
def refsOk (s : GraphState) : Prop :=
  ∀ c ∈ s.connections,
    (∃ b ∈ s.blocks, b.id = c.fromId) ∧ (∃ b ∈ s.blocks, b.id = c.toId)

instance (s : GraphState) : Decidable (refsOk s) := by
  unfold refsOk; infer_instance

lemma refsOk_addBlockAt (s : GraphState) (ty : BlockType) (x y : ℚ) (now : Nat)
    (h : refsOk s) : refsOk (addBlockAt s ty x y now) := by
  intro c hc
  rcases h c hc with ⟨⟨b₁, hb₁, he₁⟩, ⟨b₂, hb₂, he₂⟩⟩
  exact ⟨⟨b₁, List.mem_append_left _ hb₁, he₁⟩, ⟨b₂, List.mem_append_left _ hb₂, he₂⟩⟩

lemma refsOk_deleteBlock (s : GraphState) (id : String)
    (h : refsOk s) : refsOk (deleteBlock s id) := by
  intro c hc
  rw [deleteBlock, List.mem_filter] at hc
  obtain ⟨hcmem, hckeep⟩ := hc
  simp only [Bool.and_eq_true, bne_iff_ne, ne_eq] at hckeep
  rcases h c hcmem with ⟨⟨b₁, hb₁, he₁⟩, ⟨b₂, hb₂, he₂⟩⟩
  constructor
  · refine ⟨b₁, ?_, he₁⟩
    rw [deleteBlock, List.mem_filter]
    exact ⟨hb₁, by simp [he₁, hckeep.1]⟩
  · refine ⟨b₂, ?_, he₂⟩
    rw [deleteBlock, List.mem_filter]
    exact ⟨hb₂, by simp [he₂, hckeep.2]⟩

lemma refsOk_applyOps (s : GraphState) (ops : List Op)
    (h : refsOk s) : refsOk (applyOps s ops) := by
  induction ops generalizing s with
  | nil => exact h
  | cons op rest ih =>
    cases op with
    | add ty x y now => exact ih _ (refsOk_addBlockAt s ty x y now h)
    | del id => exact ih _ (refsOk_deleteBlock s id h)

/-- C1: `deleteBlock id` removes the block with that id and, in the same
atomic graph mutation, every connection whose `from` or `to` equals the
id; consequently, starting from a referentially consistent workspace,
the connection set never references a nonexistent block id after any
sequence of `addBlockAt` / `deleteBlock` operations (in particular, the
state after every `deleteBlock` is again consistent). -/
theorem deleteBlock_cascades_refsOk (s : GraphState) (ops : List Op)
    (h : refsOk s) :
    refsOk (applyOps s ops) ∧
    ∀ id : String,
      (∀ b ∈ (deleteBlock s id).blocks, b.id ≠ id) ∧
      (∀ c ∈ (deleteBlock s id).connections, c.fromId ≠ id ∧ c.toId ≠ id) ∧
      refsOk (deleteBlock s id) := by
  refine ⟨refsOk_applyOps s ops h, fun id => ⟨?_, ?_, refsOk_deleteBlock s id h⟩⟩
  · intro b hb
    rw [deleteBlock, List.mem_filter] at hb
    simpa using hb.2
  · intro c hc
    rw [deleteBlock, List.mem_filter] at hc
    have := hc.2
    simp only [Bool.and_eq_true, bne_iff_ne, ne_eq] at this
    exact this

/-- A concrete block used by witnesses below. -/
def wBlock (i : String) : BlockData :=
  { id := i
    type := .note
    content := ""
    position := ⟨0, 0⟩
    width := 280
    height := 160
    status := .todo
    createdAt := 0
    tags := [] }

/-- A concrete consistent graph: blocks `a`, `b` and one connection. -/
def wGraph : GraphState :=
  { blocks := [wBlock "a", wBlock "b"]
    connections := [⟨"a-b", "a", "b"⟩] }

/-- Witness for `deleteBlock_cascades_refsOk` at a concrete consistent
state and a concrete operation sequence. -/
theorem deleteBlock_cascades_refsOk_witness :
    refsOk (applyOps wGraph [Op.del "a", Op.add .note 0 0 7]) ∧
    ∀ id : String,
      (∀ b ∈ (deleteBlock wGraph id).blocks, b.id ≠ id) ∧
      (∀ c ∈ (deleteBlock wGraph id).connections, c.fromId ≠ id ∧ c.toId ≠ id) ∧
      refsOk (deleteBlock wGraph id) :=
  deleteBlock_cascades_refsOk wGraph [Op.del "a", Op.add .note 0 0 7] (by decide)

/-- types.ts `CanvasMode`. -/
inductive CanvasMode
  | idle | draggingBlock | panning | connecting
deriving DecidableEq

/-- The slice of App.tsx UI state that the connect gesture reads and
writes: `mode`, `connectionStartId`, and the active workspace's
connection list. -/
structure UIState where
  mode : CanvasMode
  connectionStartId : Option String
  connections : List Connection
deriving DecidableEq

/-- App.tsx `handleConnectStart`: enters `CONNECTING` and records the
source block id. -/
def handleConnectStart (s : UIState) (id : String) : UIState :=
  { s with mode := .connecting, connectionStartId := some id }

/-- The duplicate check in App.tsx `handleConnectEnd`:
`connections.some(c => c.from === connectionStartId && c.to === targetId)`. -/
def hasEdge (conns : List Connection) (a b : String) : Bool :=
  conns.any (fun c => c.fromId == a && c.toId == b)

/-- App.tsx `handleConnectEnd`: when the mode is `CONNECTING`, the start
id is truthy (non-null, non-empty) and differs from the target, and no
identical `(from, to)` pair exists, append a new connection; in every
case reset the mode to `IDLE` and clear the start id.  The fresh
connection id embeds `Date.now()`, passed as `now`. -/
def handleConnectEnd (s : UIState) (targetId : String) (now : Nat) : UIState :=
  let conns :=
    match s.connectionStartId with
    | none => s.connections
    | some startId =>
      if s.mode = .connecting ∧ startId ≠ "" ∧ startId ≠ targetId then
        if hasEdge s.connections startId targetId then s.connections
        else s.connections ++
          [⟨startId ++ "-" ++ targetId ++ "-" ++ toString now, startId, targetId⟩]
      else s.connections
  { mode := .idle, connectionStartId := none, connections := conns }

/-- App.tsx `handleMouseUp`: resets the gesture state; the connection
list is not touched. -/
def handleMouseUp (s : UIState) : UIState :=
  { s with mode := .idle, connectionStartId := none }

/-- Number of `(a, b)` edges in a connection list. -/
def edgeCount (conns : List Connection) (a b : String) : Nat :=
  (conns.filter (fun c => c.fromId == a && c.toId == b)).length

lemma edgeCount_eq_zero_of_hasEdge_false (conns : List Connection) (a b : String)
    (h : hasEdge conns a b = false) : edgeCount conns a b = 0 := by
  rw [edgeCount, List.length_eq_zero, List.filter_eq_nil_iff]
  intro c hc
  rw [hasEdge, List.any_eq_false] at h
  simpa using h c hc

/-- C2: with the connect gesture armed from source `s` (mode
`CONNECTING`, truthy start id), releasing on target `t` appends the new
`(s, t)` connection exactly when `s ≠ t` and no `(s, t)` edge exists,
and otherwise leaves the connection list unchanged; releasing elsewhere
(`handleMouseUp`) never touches the connection list; and completing the
same `(s, t)` gesture twice in succession from a state with no `(s, t)`
edge leaves exactly one `(s, t)` edge. -/
theorem connectEnd_adds_iff_fresh (st : UIState) (s t : String) (n₁ n₂ : Nat)
    (hmode : st.mode = .connecting) (hstart : st.connectionStartId = some s)
    (hs : s ≠ "") :
    ((handleConnectEnd st t n₁).connections =
      if s ≠ t ∧ hasEdge st.connections s t = false then
        st.connections ++ [⟨s ++ "-" ++ t ++ "-" ++ toString n₁, s, t⟩]
      else st.connections) ∧
    (handleMouseUp st).connections = st.connections ∧
    (s ≠ t → hasEdge st.connections s t = false →
      edgeCount
        (handleConnectEnd (handleConnectStart (handleConnectEnd st t n₁) s) t n₂).connections
        s t = 1) := by
  refine ⟨?_, rfl, ?_⟩
  · rw [handleConnectEnd, hstart]
    by_cases hst : s = t
    · simp [hst, hmode]
    · by_cases hdup : hasEdge st.connections s t
      · simp [hmode, hs, hst, hdup]
      · simp only [Bool.not_eq_true] at hdup
        simp [hmode, hs, hst, hdup]
  · intro hst hdup
    have h₁ : (handleConnectEnd st t n₁).connections =
        st.connections ++ [⟨s ++ "-" ++ t ++ "-" ++ toString n₁, s, t⟩] := by
      rw [handleConnectEnd, hstart]
      simp [hmode, hs, hst, hdup]
    have hdup₂ : hasEdge (handleConnectEnd st t n₁).connections s t = true := by
      rw [h₁, hasEdge, List.any_append]
      simp [hasEdge]
    have hres : (handleConnectEnd (handleConnectStart (handleConnectEnd st t n₁) s) t n₂).connections
        = st.connections ++ [⟨s ++ "-" ++ t ++ "-" ++ toString n₁, s, t⟩] := by
      rw [handleConnectEnd]
      simp only [handleConnectStart, h₁]
      rw [h₁] at hdup₂
      simp [hdup₂, hs, hst]
    rw [hres, edgeCount, List.filter_append]
    have h0 : edgeCount st.connections s t = 0 :=
      edgeCount_eq_zero_of_hasEdge_false st.connections s t hdup
    rw [edgeCount] at h0
    simp [h0]

/-- Witness for `connectEnd_adds_iff_fresh` at a concrete armed state. -/
theorem connectEnd_adds_iff_fresh_witness :
    ((handleConnectEnd ⟨.connecting, some "a", []⟩ "b" 3).connections =
      if "a" ≠ "b" ∧ hasEdge [] "a" "b" = false then
        [⟨"a" ++ "-" ++ "b" ++ "-" ++ toString 3, "a", "b"⟩]
      else []) ∧
    (handleMouseUp ⟨.connecting, some "a", []⟩).connections = [] ∧
    ("a" ≠ "b" → hasEdge [] "a" "b" = false →
      edgeCount
        (handleConnectEnd
          (handleConnectStart (handleConnectEnd ⟨.connecting, some "a", []⟩ "b" 3) "a")
          "b" 4).connections "a" "b" = 1) := by
  have h := connectEnd_adds_iff_fresh ⟨.connecting, some "a", []⟩ "a" "b" 3 4
    rfl rfl (by decide)
  simpa using h

/-- The by-id patch pattern every pipeline write uses in App.tsx:
`prev.map(b => b.id === id ? { ...b, <fields> } : b)`. -/
def patchById (blocks : List BlockData) (id : String) (patch : BlockData → BlockData) :
    List BlockData :=
  blocks.map (fun b => if b.id = id then patch b else b)

/-- App.tsx `blocks.find(b => b.id === id)`. -/
def findBlock (blocks : List BlockData) (id : String) : Option BlockData :=
  blocks.find? (fun b => b.id == id)

/-- The `isProcessing` field of the (first) block with the given id. -/
def getProc (blocks : List BlockData) (id : String) : Option Bool :=
  (findBlock blocks id).bind (fun b => b.isProcessing)

/-- The `content` field of the (first) block with the given id. -/
def getContent (blocks : List BlockData) (id : String) : Option String :=
  (findBlock blocks id).map (fun b => b.content)

/-- The chat history of the (first) block with the given id (empty when
the block or its history is absent), as the UI renders it. -/
def getHistory (blocks : List BlockData) (id : String) : List ChatMessage :=
  ((findBlock blocks id).bind (fun b => b.chatHistory)).getD []

/-- The `position` field of the (first) block with the given id. -/
def getPosition (blocks : List BlockData) (id : String) : Option Pos :=
  (findBlock blocks id).map (fun b => b.position)

/-- The indexed RAG documents of the (first) block with the given id
(empty when absent), mirroring `block.ragIndexedDocs || []`. -/
def getRagDocs (blocks : List BlockData) (id : String) : List RagDocument :=
  ((findBlock blocks id).bind (fun b => b.ragIndexedDocs)).getD []

lemma patchById_of_absent (id : String) (f : BlockData → BlockData) :
    ∀ blocks : List BlockData, (∀ b ∈ blocks, b.id ≠ id) →
      patchById blocks id f = blocks
  | [], _ => rfl
  | a :: rest, h => by
    rw [patchById, List.map_cons, if_neg (h a (List.mem_cons_self a rest))]
    have hrest := patchById_of_absent id f rest (fun b hb => h b (List.mem_cons_of_mem a hb))
    rw [patchById] at hrest
    rw [hrest]

lemma find?_patchById (id : String) (f : BlockData → BlockData)
    (hid : ∀ b, (f b).id = b.id) :
    ∀ blocks : List BlockData,
      findBlock (patchById blocks id f) id = (findBlock blocks id).map f
  | [] => rfl
  | a :: rest => by
    by_cases h : a.id = id
    · rw [patchById, List.map_cons, if_pos h, findBlock, findBlock,
        List.find?_cons_of_pos _ (by simp [hid, h]),
        List.find?_cons_of_pos _ (by simp [h])]
      rfl
    · rw [patchById, List.map_cons, if_neg h, findBlock, findBlock,
        List.find?_cons_of_neg _ (by simp [h]),
        List.find?_cons_of_neg _ (by simp [h])]
      have hrest := find?_patchById id f hid rest
      rw [findBlock, findBlock, patchById] at hrest
      exact hrest

lemma absent_of_findBlock_none (blocks : List BlockData) (id : String)
    (h : findBlock blocks id = none) : ∀ b ∈ blocks, b.id ≠ id := by
  intro b hb
  have := List.find?_eq_none.mp h b hb
  simpa using this

/-- The completion write of the text-refinement pipeline (App.tsx):
`prev.map(b => b.id === id ? { ...b, content: result, isProcessing: false } : b)`. -/
def refinementComplete (blocks : List BlockData) (id result : String) : List BlockData :=
  patchById blocks id (fun b => { b with content := result, isProcessing := some false })

/-- C7: a pipeline completion patch for target id mutates only the
blocks whose id matches — any position holding a block with a different
id is unchanged — and when no block carries that id the block list is
entirely unchanged, so a block deleted while the call was in flight is
never resurrected. -/
theorem completion_patch_frame (blocks : List BlockData) (id result : String)
    (i : Nat) (h : i < blocks.length) :
    (blocks[i].id ≠ id → (refinementComplete blocks id result)[i]? = some blocks[i]) ∧
    ((∀ b ∈ blocks, b.id ≠ id) → refinementComplete blocks id result = blocks) := by
  constructor
  · intro hne
    rw [refinementComplete, patchById, List.getElem?_map,
      List.getElem?_eq_getElem h]
    simp [hne]
  · intro habs
    exact patchById_of_absent id _ blocks habs

/-- Witness for `completion_patch_frame`: patching an absent id on a
concrete block list touches nothing. -/
theorem completion_patch_frame_witness :
    (refinementComplete wGraph.blocks "zzz" "r")[0]? = some (wBlock "a") ∧
    refinementComplete wGraph.blocks "zzz" "r" = wGraph.blocks := by
  have h := completion_patch_frame wGraph.blocks "zzz" "r" 0 (by decide)
  exact ⟨h.1 (by decide), h.2 (by decide)⟩

/-- App.tsx input gathering: `connections.filter(c => c.to === id).map(c => c.from)`. -/
def inputIdsOf (conns : List Connection) (id : String) : List String :=
  (conns.filter (fun c => c.toId == id)).map (fun c => c.fromId)

/-- App.tsx input gathering: `blocks.filter(b => inputIds.includes(b.id))`. -/
def inputBlocksOf (blocks : List BlockData) (conns : List Connection) (id : String) :
    List BlockData :=
  blocks.filter (fun b => (inputIdsOf conns id).contains b.id)

/-- The `isProcessing: true` write shared by all pipelines:
`prev.map(b => b.id === id ? { ...b, isProcessing: true } : b)`. -/
def setProcessing (blocks : List BlockData) (id : String) : List BlockData :=
  patchById blocks id (fun b => { b with isProcessing := some true })

/-- JavaScript `Array.prototype.join`: empty list gives the empty string,
a singleton gives its element, otherwise elements are interleaved with
the separator. -/
def joinSep (sep : String) : List String → String
  | [] => ""
  | [x] => x
  | x :: xs => x ++ sep ++ joinSep sep xs

/-- The refinement pipeline's input text (App.tsx `handleRunRefinement`):
`inputBlocks.map(b => b.content).join('\n\n')`. -/
def refinementInputText (s : GraphState) (id : String) : String :=
  joinSep "\n\n" ((inputBlocksOf s.blocks s.connections id).map (fun b => b.content))

/-- App.tsx `handleRunRefinement`, fully composed with the awaited
service outcome `result`.  The two alerts return without mutating; past
them the handler sets `isProcessing`, awaits `refineText`, and writes
`content`/`isProcessing: false`. -/
def handleRunRefinement (s : GraphState) (id result : String) : GraphState :=
  match findBlock s.blocks id with
  | none => s
  | some block =>
    if jsTruthyStr block.instruction = false then s
    else if refinementInputText s id = "" then s
    else
      { s with blocks :=
          (patchById (setProcessing s.blocks id) id
            (fun b => { b with content := result, isProcessing := some false })) }

/-- The decision `handleRunRefinement` makes before issuing the external
call: the target exists, its `instruction` is truthy, and the joined
input text is non-empty.  The external call and the state writes happen
exactly when this is `true`. -/
def refinementProceeds (s : GraphState) (id : String) : Bool :=
  match findBlock s.blocks id with
  | none => false
  | some block => jsTruthyStr block.instruction && (refinementInputText s id != "")

/-- App.tsx `handleChatNodeSubmit` up to the external call: the user
message is appended to the captured history and `isProcessing` is set,
before any await. -/
def chatPhase1Blocks (blocks : List BlockData) (id message : String) : List BlockData :=
  match findBlock blocks id with
  | none => blocks
  | some block =>
    patchById blocks id (fun b =>
      { b with chatHistory := some (block.chatHistory.getD [] ++ [⟨.user, message⟩]),
               isProcessing := some true })

/-- App.tsx `handleChatNodeSubmit`, fully composed with the awaited
reply `response`.  The rag-db branch (`queryRagDatabase`) and the normal
branch (`chatWithContext`) differ only in which service computes the
reply; both append `{role:'model', text:response}` to the captured
`newHistory` and clear `isProcessing`. -/
def handleChatNodeSubmit (s : GraphState) (id message response : String) : GraphState :=
  match findBlock s.blocks id with
  | none => s
  | some block =>
    { s with blocks :=
        (patchById
          (patchById s.blocks id (fun b =>
            { b with chatHistory := some (block.chatHistory.getD [] ++ [⟨.user, message⟩]),
                     isProcessing := some true }))
          id (fun b =>
            { b with chatHistory := (some (block.chatHistory.getD [] ++
                       [⟨.user, message⟩] ++ [⟨.model, response⟩])),
                     isProcessing := some false })) }

/-- The `'link' | 'youtube'` tag of `handleProcessSourceUrl`. -/
inductive UrlType
  | link | youtube
deriving DecidableEq

/-- App.tsx `handleProcessSourceUrl`, composed with the awaited
`processUrlSource` outcome `content`: stores the url and sets
`isProcessing`, then writes the content and clears the flag. -/
def handleProcessSourceUrl (s : GraphState) (id url : String) (ty : UrlType)
    (content : String) : GraphState :=
  { s with blocks :=
      (patchById
        (patchById s.blocks id (fun b =>
          { b with sourceUrl := some url, isProcessing := some true }))
        id (fun b => { b with content := content, isProcessing := some false })) }

/-- App.tsx `handleProcessPdf` (inside the FileReader `onloadend`),
composed with the awaited `processPdf` outcome `text`. -/
def handleProcessPdf (s : GraphState) (id fileName text : String) : GraphState :=
  { s with blocks :=
      (patchById
        (patchById s.blocks id (fun b =>
          { b with title := some fileName, isProcessing := some true }))
        id (fun b => { b with content := text, isProcessing := some false })) }

/-- App.tsx `handleAudioRecordFinish` (inside the FileReader
`onloadend`), composed with the awaited `transcribeAudio` outcome. -/
def handleAudioRecordFinish (s : GraphState) (id text : String) : GraphState :=
  { s with blocks :=
      (patchById (setProcessing s.blocks id) id
        (fun b => { b with content := text, isProcessing := some false })) }

/-- Outcome of one `ai.models.generateContent` await as the services
observe it: either a response (whose `.text` may be absent or empty, and
which may carry search-grounding metadata), or a thrown error that the
service's try/catch intercepts. -/
inductive CallResult
  | ok (text : Option String) (grounded : Bool)
  | threw
deriving DecidableEq

/-- geminiService.ts `refineText`: result as a function of the API-key
check and the call outcome (the prompt built from `inputText` and
`instruction` feeds the request only). -/
def refineText (inputText instruction : String) (haveKey : Bool) (call : CallResult) :
    String :=
  match haveKey, call with
  | false, _ => "Error: API Key missing."
  | true, .ok t _ => jsOr t ""
  | true, .threw => "Failed to refine text."

/-- geminiService.ts `transcribeAudio`. -/
def transcribeAudio (base64Audio mimeType : String) (haveKey : Bool) (call : CallResult) :
    String :=
  match haveKey, call with
  | false, _ => "Error: API Key missing."
  | true, .ok t _ => jsOr t "(No audio detected)"
  | true, .threw => "Failed to transcribe audio."

/-- geminiService.ts `processUrlSource`: grounding metadata appends a
verification note to the extracted text. -/
def processUrlSource (url : String) (ty : UrlType) (haveKey : Bool) (call : CallResult) :
    String :=
  match haveKey, call with
  | false, _ => "Error: API Key missing."
  | true, .ok t grounded =>
    if grounded then
      jsOr t "Could not retrieve content." ++ "\n\n[Source verified via Google Search]"
    else jsOr t "Could not retrieve content."
  | true, .threw => "Failed to process URL. Ensure it is accessible."

/-- geminiService.ts `processPdf`. -/
def processPdf (base64Pdf : String) (haveKey : Bool) (call : CallResult) : String :=
  match haveKey, call with
  | false, _ => "Error: API Key missing."
  | true, .ok t _ => jsOr t "Could not extract text from PDF."
  | true, .threw => "Failed to process PDF file."

/-- geminiService.ts `chatWithContext`. -/
def chatWithContext (history : List ChatMessage) (contextText newMessage : String)
    (systemInstruction : Option String) (haveKey : Bool) (call : CallResult) : String :=
  match haveKey, call with
  | false, _ => "Error: API Key missing."
  | true, .ok t _ => jsOr t "I didn't catch that."
  | true, .threw => "Error communicating with Gemini."

/-- geminiService.ts `queryRagDatabase`. -/
def queryRagDatabase (history : List ChatMessage) (docs : List RagDocument)
    (newMessage : String) (haveKey : Bool) (call : CallResult) : String :=
  match haveKey, call with
  | false, _ => "Error: API Key missing."
  | true, .ok t _ => jsOr t "No response generated based on this knowledge base."
  | true, .threw => "Failed to query the RAG database."

lemma getProc_patch_twice (blocks : List BlockData) (id : String)
    (f g : BlockData → BlockData)
    (hf : ∀ b, (f b).id = b.id) (hg : ∀ b, (g b).id = b.id)
    (hgp : ∀ b, (g b).isProcessing = some false)
    (b : BlockData) (hfind : findBlock blocks id = some b) :
    getProc (patchById (patchById blocks id f) id g) id = some false := by
  rw [getProc, find?_patchById id g hg, find?_patchById id f hf, hfind]
  simp [hgp]

lemma patch_twice_clears (blocks : List BlockData) (id : String)
    (f g : BlockData → BlockData)
    (hf : ∀ b, (f b).id = b.id) (hg : ∀ b, (g b).id = b.id)
    (hgp : ∀ b, (g b).isProcessing = some false) :
    patchById (patchById blocks id f) id g = blocks ∨
      getProc (patchById (patchById blocks id f) id g) id = some false := by
  cases hfind : findBlock blocks id with
  | none =>
    left
    have habs := absent_of_findBlock_none blocks id hfind
    rw [patchById_of_absent id f blocks habs, patchById_of_absent id g blocks habs]
  | some b =>
    right
    exact getProc_patch_twice blocks id f g hf hg hgp b hfind

/-- types.ts `GlobalRagDatabase` registry update performed by
`handleRagIndex`'s timeout: `findIndex` on the name and, when found,
append the new docs to that entry; when the name is absent the registry
is returned unchanged. -/
def updateGlobalRags (rags : List GlobalRagDatabase) (nm : String)
    (newDocs : List RagDocument) (now : Nat) : List GlobalRagDatabase :=
  match rags with
  | [] => []
  | r :: rest =>
    if r.name = nm then { r with docs := r.docs ++ newDocs, updatedAt := now } :: rest
    else r :: updateGlobalRags rest nm newDocs now

/-- App-level state touched by `handleRagIndex`: the active workspace
graph plus the global RAG registry. -/
structure AppState where
  blocks : List BlockData
  connections : List Connection
  globalRags : List GlobalRagDatabase
deriving DecidableEq

/-- The `RagDocument` snapshots `handleRagIndex` builds from the
connected input blocks (`Date.now()` passed as `now`). -/
def mkRagDocs (inputBlocks : List BlockData) (now : Nat) : List RagDocument :=
  inputBlocks.map (fun b =>
    { id := b.id ++ "-" ++ toString now
      sourceId := b.id
      title := jsOr b.title "Untitled"
      content := b.content
      timestamp := now
      type := b.type })

/-- App.tsx `handleRagIndex`, composed with its timeout completion:
missing block or zero connected inputs alerts and returns; otherwise the
handler sets `isProcessing`, snapshots the inputs, appends them to the
target's `ragIndexedDocs` and clears the flag, and updates the global
registry only when the captured block's `ragDbName` is truthy. -/
def handleRagIndex (s : AppState) (id : String) (now : Nat) : AppState :=
  match findBlock s.blocks id with
  | none => s
  | some block =>
    if (inputBlocksOf s.blocks s.connections id).length = 0 then s
    else
      { blocks :=
          (patchById (setProcessing s.blocks id) id (fun b =>
            { b with
              ragIndexedDocs := (some (b.ragIndexedDocs.getD [] ++
                mkRagDocs (inputBlocksOf s.blocks s.connections id) now))
              isProcessing := some false
              ragLastSynced := some now }))
        connections := s.connections
        globalRags :=
          (match block.ragDbName with
           | none => s.globalRags
           | some nm =>
             if nm = "" then s.globalRags
             else updateGlobalRags s.globalRags nm
               (mkRagDocs (inputBlocksOf s.blocks s.connections id) now) now) }

/-- C3: every pipeline that sets `isProcessing` on its target clears it
when the awaited call resolves — for any outcome string `r`, each
composed pipeline either returns the state untouched (a precondition
alert) or leaves the target block with `isProcessing = false` — and each
completion-service function is total with a string fallback: a thrown
provider error is caught and returned as the documented failure
string, never propagated. -/
theorem pipelines_clear_isProcessing
    (it ins b64 mime url fname m ctx : String) (ty : UrlType)
    (hist : List ChatMessage) (docs : List RagDocument) (sys : Option String)
    (s : GraphState) (app : AppState) (id r : String) (now : Nat) :
    refineText it ins true CallResult.threw = "Failed to refine text." ∧
    transcribeAudio b64 mime true CallResult.threw = "Failed to transcribe audio." ∧
    processUrlSource url ty true CallResult.threw =
      "Failed to process URL. Ensure it is accessible." ∧
    processPdf b64 true CallResult.threw = "Failed to process PDF file." ∧
    chatWithContext hist ctx m sys true CallResult.threw =
      "Error communicating with Gemini." ∧
    queryRagDatabase hist docs m true CallResult.threw =
      "Failed to query the RAG database." ∧
    (handleRunRefinement s id r = s ∨
      getProc (handleRunRefinement s id r).blocks id = some false) ∧
    (handleChatNodeSubmit s id m r = s ∨
      getProc (handleChatNodeSubmit s id m r).blocks id = some false) ∧
    (handleProcessSourceUrl s id url ty r = s ∨
      getProc (handleProcessSourceUrl s id url ty r).blocks id = some false) ∧
    (handleProcessPdf s id fname r = s ∨
      getProc (handleProcessPdf s id fname r).blocks id = some false) ∧
    (handleAudioRecordFinish s id r = s ∨
      getProc (handleAudioRecordFinish s id r).blocks id = some false) ∧
    (handleRagIndex app id now = app ∨
      getProc (handleRagIndex app id now).blocks id = some false) := by
  refine ⟨rfl, rfl, rfl, rfl, rfl, rfl, ?_, ?_, ?_, ?_, ?_, ?_⟩
  · rw [handleRunRefinement]
    cases hfind : findBlock s.blocks id with
    | none => exact Or.inl rfl
    | some block =>
      by_cases hins : jsTruthyStr block.instruction = false
      · simp [hins]
      · by_cases htxt : refinementInputText s id = ""
        · simp [hins, htxt]
        · simp only [hins, htxt, if_false, if_neg htxt]
          right
          exact getProc_patch_twice s.blocks id _ _ (fun b => rfl) (fun b => rfl)
            (fun b => rfl) block hfind
  · rw [handleChatNodeSubmit]
    cases hfind : findBlock s.blocks id with
    | none => exact Or.inl rfl
    | some block =>
      right
      exact getProc_patch_twice s.blocks id _ _ (fun b => rfl) (fun b => rfl)
        (fun b => rfl) block hfind
  · rcases patch_twice_clears s.blocks id
      (fun b => { b with sourceUrl := some url, isProcessing := some true })
      (fun b => { b with content := r, isProcessing := some false })
      (fun b => rfl) (fun b => rfl) (fun b => rfl) with h | h
    · left; rw [handleProcessSourceUrl, h]
    · right; exact h
  · rcases patch_twice_clears s.blocks id
      (fun b => { b with title := some fname, isProcessing := some true })
      (fun b => { b with content := r, isProcessing := some false })
      (fun b => rfl) (fun b => rfl) (fun b => rfl) with h | h
    · left; rw [handleProcessPdf, h]
    · right; exact h
  · rcases patch_twice_clears s.blocks id
      (fun b => { b with isProcessing := some true })
      (fun b => { b with content := r, isProcessing := some false })
      (fun b => rfl) (fun b => rfl) (fun b => rfl) with h | h
    · left; rw [handleAudioRecordFinish, setProcessing, h]
    · right; exact h
  · rw [handleRagIndex]
    cases hfind : findBlock app.blocks id with
    | none => exact Or.inl rfl
    | some block =>
      by_cases hlen : (inputBlocksOf app.blocks app.connections id).length = 0
      · simp [hlen]
      · simp only [hlen, if_false, if_neg hlen]
        right
        exact getProc_patch_twice app.blocks id _ _ (fun b => rfl) (fun b => rfl)
          (fun b => rfl) block hfind

lemma joinSep_eq_empty_iff :
    ∀ l : List String, joinSep "\n\n" l = "" ↔ l.length ≤ 1 ∧ ∀ x ∈ l, x = ""
  | [] => by simp [joinSep]
  | [x] => by simp [joinSep]
  | x :: y :: rest => by
    simp only [joinSep]
    constructor
    · intro h
      have hl := congrArg String.length h
      rw [String.length_append, String.length_append] at hl
      have h2 : ("\n\n" : String).length = 2 := rfl
      have h0 : ("" : String).length = 0 := rfl
      rw [h2, h0] at hl
      omega
    · rintro ⟨hlen, _⟩
      simp only [List.length_cons] at hlen
      omega

lemma getContent_patch_refine (blocks : List BlockData) (id r : String)
    (block : BlockData) (hfind : findBlock blocks id = some block) :
    getContent (patchById (setProcessing blocks id) id
      (fun b => { b with content := r, isProcessing := some false })) id = some r := by
  rw [getContent,
    find?_patchById id (fun b => { b with content := r, isProcessing := some false })
      (fun b => rfl),
    setProcessing,
    find?_patchById id (fun b => { b with isProcessing := some true }) (fun b => rfl),
    hfind]
  rfl

lemma refinementProceeds_some (s : GraphState) (id : String) (block : BlockData)
    (hfind : findBlock s.blocks id = some block) :
    refinementProceeds s id =
      (jsTruthyStr block.instruction && (refinementInputText s id != "")) := by
  simp only [refinementProceeds]
  rw [hfind]

lemma handleRunRefinement_some (s : GraphState) (id r : String) (block : BlockData)
    (hfind : findBlock s.blocks id = some block) :
    handleRunRefinement s id r =
      (if jsTruthyStr block.instruction = false then s
       else if refinementInputText s id = "" then s
       else
        { s with blocks :=
            (patchById (setProcessing s.blocks id) id
              (fun b => { b with content := r, isProcessing := some false })) }) := by
  simp only [handleRunRefinement]
  rw [hfind]

/-- C4 (amended): `handleRunRefinement` mutates nothing and issues no
external call unless its target exists, the target's `instruction` is
truthy, and the blank-line join of the connected inputs' `content`
fields is a non-empty string; when that gate passes it writes the call
result into the target and leaves the connections untouched.  The join
is empty exactly when there are at most one connected input and every
connected input's content is empty — so two connected inputs with empty
content already pass the gate. -/
theorem refinement_runs_iff_joined_nonempty (s : GraphState) (id r : String) :
    (refinementProceeds s id = false → handleRunRefinement s id r = s) ∧
    (refinementProceeds s id = true →
      getContent (handleRunRefinement s id r).blocks id = some r ∧
      getProc (handleRunRefinement s id r).blocks id = some false ∧
      (handleRunRefinement s id r).connections = s.connections) ∧
    (∀ l : List String, joinSep "\n\n" l = "" ↔ l.length ≤ 1 ∧ ∀ x ∈ l, x = "") := by
  refine ⟨?_, ?_, joinSep_eq_empty_iff⟩
  · cases hfind : findBlock s.blocks id with
    | none =>
      intro _
      simp only [handleRunRefinement]
      rw [hfind]
    | some block =>
      rw [refinementProceeds_some s id block hfind,
        handleRunRefinement_some s id r block hfind]
      intro h
      cases hins : jsTruthyStr block.instruction with
      | false => simp [hins]
      | true =>
        rw [hins] at h
        simp only [Bool.true_and, bne_eq_false_iff_eq] at h
        simp [h, hins]
  · cases hfind : findBlock s.blocks id with
    | none =>
      rw [refinementProceeds]
      rw [hfind]
      intro h
      cases h
    | some block =>
      rw [refinementProceeds_some s id block hfind,
        handleRunRefinement_some s id r block hfind]
      intro h
      have hins : jsTruthyStr block.instruction = true := by
        cases hi : jsTruthyStr block.instruction
        · rw [hi] at h; simp at h
        · rfl
      have htxt : refinementInputText s id ≠ "" := by
        intro he
        rw [hins] at h
        simp [he] at h
      simp only [hins, Bool.true_eq_false, if_false, if_neg htxt]
      exact ⟨getContent_patch_refine s.blocks id r block hfind,
        getProc_patch_twice s.blocks id _ _ (fun b => rfl) (fun b => rfl)
          (fun b => rfl) block hfind, trivial⟩

/-- The refinement block of the C4 counterexample: non-empty instruction,
two connected inputs, both with empty content. -/
def cRefBlock : BlockData :=
  { id := "b", type := .refinement, content := "",
    instruction := some "x",
    position := ⟨0, 0⟩, width := 280, height := 160,
    status := .todo, createdAt := 0, tags := [] }

/-- The C4 counterexample state: refinement block `b` with inputs `i1`
and `i2`, both of empty content. -/
def cRefState : GraphState :=
  { blocks := [cRefBlock, wBlock "i1", wBlock "i2"]
    connections := [⟨"c1", "i1", "b"⟩, ⟨"c2", "i2", "b"⟩] }

/-- Counterexample to C4 as stated: in `cRefState` no connected input of
`b` has any content, yet `handleRunRefinement` proceeds — the external
call's result is written into `b` — because the blank-line join of two
empty contents is the non-empty string of one separator. -/
theorem refinement_empty_inputs_cex :
    (∀ b ∈ inputBlocksOf cRefState.blocks cRefState.connections "b", b.content = "") ∧
    (inputBlocksOf cRefState.blocks cRefState.connections "b").length = 2 ∧
    (findBlock cRefState.blocks "b").bind (fun b => b.instruction) = some "x" ∧
    getContent cRefState.blocks "b" = some "" ∧
    getContent (handleRunRefinement cRefState "b" "REFINED").blocks "b" = some "REFINED" := by
  refine ⟨by decide, by decide, rfl, rfl, rfl⟩

/-- Witness for `refinement_runs_iff_joined_nonempty` at the concrete
state `cRefState`, whose gate passes. -/
theorem refinement_runs_iff_joined_nonempty_witness :
    (getContent (handleRunRefinement cRefState "b" "WITNESSED").blocks "b" = some "WITNESSED" ∧
     getProc (handleRunRefinement cRefState "b" "WITNESSED").blocks "b" = some false ∧
     (handleRunRefinement cRefState "b" "WITNESSED").connections = cRefState.connections) ∧
    (joinSep "\n\n" ["hi"] = "" ↔ (["hi"] : List String).length ≤ 1 ∧ ∀ x ∈ ["hi"], x = "") := by
  obtain ⟨h1, h2, h3⟩ := refinement_runs_iff_joined_nonempty cRefState "b" "WITNESSED"
  exact ⟨h2 (by decide), h3 ["hi"]⟩

lemma handleRagIndex_some (s : AppState) (id : String) (now : Nat) (block : BlockData)
    (hfind : findBlock s.blocks id = some block) :
    handleRagIndex s id now =
      (if (inputBlocksOf s.blocks s.connections id).length = 0 then s
       else
        { blocks :=
            (patchById (setProcessing s.blocks id) id (fun b =>
              { b with
                ragIndexedDocs := (some (b.ragIndexedDocs.getD [] ++
                  mkRagDocs (inputBlocksOf s.blocks s.connections id) now))
                isProcessing := some false
                ragLastSynced := some now }))
          connections := s.connections
          globalRags :=
            (match block.ragDbName with
             | none => s.globalRags
             | some nm =>
               if nm = "" then s.globalRags
               else updateGlobalRags s.globalRags nm
                 (mkRagDocs (inputBlocksOf s.blocks s.connections id) now) now) }) := by
  simp only [handleRagIndex]
  rw [hfind]

/-- C5 (amended): the precondition `handleRagIndex` actually checks is
"at least one connected input", not "a database was created or loaded":
with zero connected inputs the handler is a no-op, while a missing
`ragDbName` does not gate ingest — with inputs present the snapshots are
appended to the target's `ragIndexedDocs` even when `ragDbName` is
unset, and only the global-registry update is skipped. -/
theorem ragIndex_amended (s : AppState) (id : String) (now : Nat) (block : BlockData) :
    ((inputBlocksOf s.blocks s.connections id).length = 0 →
      handleRagIndex s id now = s) ∧
    (findBlock s.blocks id = some block → jsTruthyStr block.ragDbName = false →
      (handleRagIndex s id now).globalRags = s.globalRags) ∧
    (findBlock s.blocks id = some block →
      (inputBlocksOf s.blocks s.connections id).length ≠ 0 →
      getRagDocs (handleRagIndex s id now).blocks id =
        getRagDocs s.blocks id ++
          mkRagDocs (inputBlocksOf s.blocks s.connections id) now) := by
  refine ⟨?_, ?_, ?_⟩
  · intro hlen
    cases hfind : findBlock s.blocks id with
    | none =>
      simp only [handleRagIndex]
      rw [hfind]
    | some b =>
      rw [handleRagIndex_some s id now b hfind]
      simp [hlen]
  · intro hfind hname
    rw [handleRagIndex_some s id now block hfind]
    by_cases hlen : (inputBlocksOf s.blocks s.connections id).length = 0
    · simp [hlen]
    · rw [if_neg hlen]
      cases hdb : block.ragDbName with
      | none => rfl
      | some nm =>
        rw [hdb] at hname
        simp only [jsTruthyStr, ne_eq, decide_not, Bool.not_eq_false',
          decide_eq_true_eq] at hname
        simp [hname]
  · intro hfind hlen
    rw [handleRagIndex_some s id now block hfind, if_neg hlen]
    rw [getRagDocs, getRagDocs,
      find?_patchById id (fun b =>
        { b with
          ragIndexedDocs := (some (b.ragIndexedDocs.getD [] ++
            mkRagDocs (inputBlocksOf s.blocks s.connections id) now))
          isProcessing := some false
          ragLastSynced := some now }) (fun b => rfl),
      setProcessing,
      find?_patchById id (fun b => { b with isProcessing := some true }) (fun b => rfl),
      hfind]
    rfl

/-- The rag-db block of the C5 scenario: no `ragDbName`, no
`ragIndexedDocs`. -/
def cRagBlockR : BlockData :=
  { id := "R", type := .ragdb, content := "",
    position := ⟨0, 0⟩, width := 280, height := 240,
    status := .todo, createdAt := 0, tags := [] }

/-- A note block with content, connected into `R`. -/
def cRagBlockA : BlockData :=
  { id := "A", type := .note, content := "hi",
    position := ⟨0, 0⟩, width := 280, height := 160,
    status := .todo, createdAt := 0, tags := [] }

/-- The C5 scenario state: rag-db block `R` without a database, one
connected input `A`. -/
def cRagState : AppState :=
  { blocks := [cRagBlockR, cRagBlockA]
    connections := [⟨"c", "A", "R"⟩]
    globalRags := [] }

/-- Counterexample to C5 as stated: `R` has no `ragDbName`, yet ingest
is not a no-op — it appends a snapshot of the connected input to
`R.ragIndexedDocs`. -/
theorem ragIndex_no_dbName_cex :
    (findBlock cRagState.blocks "R").bind (fun b => b.ragDbName) = none ∧
    getRagDocs cRagState.blocks "R" = [] ∧
    getRagDocs (handleRagIndex cRagState "R" 5).blocks "R" =
      [{ id := "A-5", sourceId := "A", title := "Untitled", content := "hi",
         timestamp := 5, type := .note }] :=
  ⟨rfl, rfl, by decide⟩

/-- Witness for `ragIndex_amended` at the concrete scenario state. -/
theorem ragIndex_amended_witness :
    handleRagIndex cRagState "A" 5 = cRagState ∧
    (handleRagIndex cRagState "R" 5).globalRags = cRagState.globalRags ∧
    getRagDocs (handleRagIndex cRagState "R" 5).blocks "R" =
      getRagDocs cRagState.blocks "R" ++
        mkRagDocs (inputBlocksOf cRagState.blocks cRagState.connections "R") 5 :=
  ⟨(ragIndex_amended cRagState "A" 5 cRagBlockA).1 (by decide),
   (ragIndex_amended cRagState "R" 5 cRagBlockR).2.1 rfl (by decide),
   (ragIndex_amended cRagState "R" 5 cRagBlockR).2.2 rfl (by decide)⟩

/-- C6: submitting message `m` on chat block `b` appends the user entry
to the block's history already in the optimistic pre-await write, and
the composed handler ends with the prior history followed by the user
entry and then the model entry — alternation in arrival order. -/
theorem chat_history_appends (s : GraphState) (id m r : String) (b : BlockData)
    (hfind : findBlock s.blocks id = some b) :
    getHistory (chatPhase1Blocks s.blocks id m) id =
      b.chatHistory.getD [] ++ [⟨.user, m⟩] ∧
    getHistory (handleChatNodeSubmit s id m r).blocks id =
      b.chatHistory.getD [] ++ [⟨.user, m⟩] ++ [⟨.model, r⟩] := by
  constructor
  · simp only [chatPhase1Blocks]
    rw [hfind, getHistory,
      find?_patchById id (fun b' =>
        { b' with chatHistory := some (b.chatHistory.getD [] ++ [⟨.user, m⟩]),
                  isProcessing := some true }) (fun b' => rfl),
      hfind]
    rfl
  · simp only [handleChatNodeSubmit]
    rw [hfind, getHistory,
      find?_patchById id (fun b' =>
        { b' with chatHistory := (some (b.chatHistory.getD [] ++
                    [⟨.user, m⟩] ++ [⟨.model, r⟩])),
                  isProcessing := some false }) (fun b' => rfl),
      find?_patchById id (fun b' =>
        { b' with chatHistory := some (b.chatHistory.getD [] ++ [⟨.user, m⟩]),
                  isProcessing := some true }) (fun b' => rfl),
      hfind]
    rfl

/-- A chat block with a two-entry history, for the C6 witness. -/
def cChatBlock : BlockData :=
  { id := "c", type := .chat, content := "",
    position := ⟨0, 0⟩, width := 280, height := 240,
    status := .todo, createdAt := 0, tags := [],
    chatHistory := some [⟨.user, "hi"⟩, ⟨.model, "yo"⟩] }

/-- The C6 witness state. -/
def cChatState : GraphState :=
  { blocks := [cChatBlock], connections := [] }

/-- Witness for `chat_history_appends` on a concrete chat block. -/
theorem chat_history_appends_witness :
    getHistory (chatPhase1Blocks cChatState.blocks "c" "q") "c" =
      [⟨.user, "hi"⟩, ⟨.model, "yo"⟩, ⟨.user, "q"⟩] ∧
    getHistory (handleChatNodeSubmit cChatState "c" "q" "a").blocks "c" =
      [⟨.user, "hi"⟩, ⟨.model, "yo"⟩, ⟨.user, "q"⟩, ⟨.model, "a"⟩] :=
  chat_history_appends cChatState "c" "q" "a" cChatBlock rfl

/-- App.tsx `handleWheel` zoom arm:
`Math.min(Math.max(0.1, scale - e.deltaY * 0.001), 3)`. -/
def zoomStep (scale deltaY : ℚ) : ℚ :=
  min (max (1/10) (scale - deltaY * (1/1000))) 3

/-- The scale reached from the initial `useState(1)` after a sequence of
modifier+wheel gestures with the given `deltaY` values. -/
def zoomFold (deltas : List ℚ) : ℚ :=
  deltas.foldl zoomStep 1

lemma zoomStep_bounds (s dy : ℚ) : 1/10 ≤ zoomStep s dy ∧ zoomStep s dy ≤ 3 :=
  ⟨le_min (le_max_left _ _) (by norm_num), min_le_right _ _⟩

lemma zoomFold_go (deltas : List ℚ) : ∀ s : ℚ, 1/10 ≤ s → s ≤ 3 →
    1/10 ≤ deltas.foldl zoomStep s ∧ deltas.foldl zoomStep s ≤ 3 := by
  induction deltas with
  | nil => exact fun s h1 h2 => ⟨h1, h2⟩
  | cons d rest ih =>
    intro s h1 h2
    rw [List.foldl_cons]
    exact ih (zoomStep s d) (zoomStep_bounds s d).1 (zoomStep_bounds s d).2

/-- C8: after any sequence of zoom wheel gestures the scale stays in
`[0.1, 3]`; each gesture clamps `scale - deltaY * 0.001` into that
interval, and coincides with the unclamped value whenever it is already
in bounds. -/
theorem scale_clamped (deltas : List ℚ) (s dy : ℚ) :
    (1/10 ≤ zoomFold deltas ∧ zoomFold deltas ≤ 3) ∧
    (1/10 ≤ zoomStep s dy ∧ zoomStep s dy ≤ 3) ∧
    (1/10 ≤ s - dy * (1/1000) → s - dy * (1/1000) ≤ 3 →
      zoomStep s dy = s - dy * (1/1000)) := by
  refine ⟨zoomFold_go deltas 1 (by norm_num) (by norm_num),
    zoomStep_bounds s dy, ?_⟩
  intro h1 h2
  rw [zoomStep, max_eq_right h1, min_eq_left h2]

/-- Witness for `scale_clamped` at a concrete gesture sequence. -/
theorem scale_clamped_witness :
    ((1/10 : ℚ) ≤ zoomFold [5000, -100] ∧ zoomFold [5000, -100] ≤ 3) ∧
    ((1/10 : ℚ) ≤ zoomStep 1 0 ∧ zoomStep 1 0 ≤ 3) ∧
    zoomStep 1 0 = 1 - 0 * (1/1000) := by
  obtain ⟨h1, h2, h3⟩ := scale_clamped [5000, -100] 1 0
  exact ⟨h1, h2, h3 (by norm_num) (by norm_num)⟩

/-- App.tsx `handleMouseMove` in `DRAGGING_BLOCK` mode: the dragged
block's position becomes the gesture-start position plus the screen
delta divided by the scale. -/
def dragBlocksMove (blocks : List BlockData) (activeId : String)
    (dragStart blockStart client : Pos) (scale : ℚ) : List BlockData :=
  patchById blocks activeId (fun b =>
    { b with position := ⟨blockStart.x + (client.x - dragStart.x) / scale,
                          blockStart.y + (client.y - dragStart.y) / scale⟩ })

/-- C9: each pointer-move while dragging sets the dragged block's
position to `startPosition + (currentScreen - startScreen) / scale`. -/
theorem drag_position_formula (blocks : List BlockData) (activeId : String)
    (dragStart blockStart client : Pos) (scale : ℚ) (b : BlockData)
    (hfind : findBlock blocks activeId = some b) :
    getPosition (dragBlocksMove blocks activeId dragStart blockStart client scale)
        activeId =
      some ⟨blockStart.x + (client.x - dragStart.x) / scale,
            blockStart.y + (client.y - dragStart.y) / scale⟩ := by
  rw [getPosition, dragBlocksMove,
    find?_patchById activeId (fun b' =>
      { b' with position := ⟨blockStart.x + (client.x - dragStart.x) / scale,
                             blockStart.y + (client.y - dragStart.y) / scale⟩ })
      (fun b' => rfl),
    hfind]
  rfl

/-- Witness for `drag_position_formula`: start `(100,100)`, screen delta
`(50,20)`, scale `2` gives `(125,110)`. -/
theorem drag_position_formula_witness :
    getPosition (dragBlocksMove [wBlock "d"] "d" ⟨0, 0⟩ ⟨100, 100⟩ ⟨50, 20⟩ 2) "d" =
      some ⟨125, 110⟩ := by
  have h := drag_position_formula [wBlock "d"] "d" ⟨0, 0⟩ ⟨100, 100⟩ ⟨50, 20⟩ 2
    (wBlock "d") rfl
  rw [h]
  norm_num [Pos.mk.injEq]

/-- A JavaScript runtime value, as far as `handleGenerateImage`'s first
statement needs: a string or the built-in `window.prompt` function. -/
inductive JsValue
  | str (s : String)
  | builtinPromptDialog
deriving DecidableEq

/-- The runtime fault an identifier lookup can produce. -/
inductive JsRuntimeError
  | referenceError (name : String)
deriving DecidableEq

/-- ES2015 identifier resolution against a block scope and the global
object: a local binding that is declared but not yet initialized (the
temporal dead zone of `let`/`const`) faults with a ReferenceError and
shadows any global of the same name. -/
def lookupIdent (locals : List (String × Option JsValue))
    (globals : List (String × JsValue)) (nm : String) :
    Except JsRuntimeError JsValue :=
  match locals.find? (fun p => p.1 == nm) with
  | some (_, some v) => .ok v
  | some (_, none) => .error (.referenceError nm)
  | none =>
    match globals.find? (fun p => p.1 == nm) with
    | some p => .ok p.2
    | none => .error (.referenceError nm)

/-- The browser globals relevant here: `window.prompt`. -/
def browserGlobals : List (String × JsValue) :=
  [("prompt", .builtinPromptDialog)]

/-- App.tsx `handleGenerateImage`.  Its first statement is
`const prompt = prompt("Describe the image you want to generate:")`: the
block-scoped `const prompt` shadows the global `window.prompt`, and the
initializer's identifier lookup runs while that binding is still
uninitialized, so it resolves into the temporal dead zone.  The
continuation (dialog answer check, optimistic image block append,
awaited `generateImageAsset` completion write) is modelled faithfully
after the lookup. -/
def handleGenerateImage (blocks : List BlockData) (dialogAnswer : Option String)
    (imageUrl : Option String) (now : Nat) (center : Pos) :
    Except JsRuntimeError (List BlockData) :=
  match lookupIdent [("prompt", none)] browserGlobals "prompt" with
  | .error e => .error e
  | .ok _callee =>
    match dialogAnswer with
    | none => .ok blocks
    | some p =>
      if p = "" then .ok blocks
      else
        .ok (patchById (blocks ++ [{
            id := toString now, type := .image, content := "Loading image...",
            title := some "Generated Image", position := center,
            width := 300, height := 300, status := .todo, createdAt := now,
            tags := ["ai-generated"], isProcessing := some true }])
          (toString now)
          (fun b => { b with content := jsOr imageUrl "Failed to generate image",
                             isProcessing := some false }))

/-- C10: every invocation of the image-generation toolbar action faults
on its first statement — reading the uninitialized block-scoped `prompt`
binding inside its own initializer throws a ReferenceError — so no image
block is ever appended and the state is untouched. -/
theorem generateImage_tdz_faults (blocks : List BlockData)
    (dialogAnswer imageUrl : Option String) (now : Nat) (center : Pos) :
    handleGenerateImage blocks dialogAnswer imageUrl now center =
      .error (.referenceError "prompt") := rfl

end TwoBoard
